import Mathlib

/-!
A shallow embedding of the golox tree-walking interpreter
(scanner, parser, environment chain, evaluator) and proofs about the
behaviour its specification claims.

Correspondence to the Go source:
* `Token`           — token/token.go `Token` (the `Type` is a string there too)
* `Expr`            — ast/ast.go: the single `ast.Expr` interface covering both
                      expression and statement variants (the interpreter
                      dispatches on all of them in one `evaluate`)
* `Value`           — the dynamic `any` values the evaluator produces
* `Env`/`InterpState` — environment/environment.go `Environment`; the Go heap
                      of environments is modelled as an indexed store
                      `envs : List Env` with parent links `enclosing : Option Nat`,
                      and the interpreter's current-environment pointer is
                      `current : Nat`
* `eval` etc.       — interpreter/interpreter.go, translated case by case
* `scanLoop` etc.   — scanner/scanner.go
* `declaration` etc.— parser (the statement parser), translated function by
                      function, with a `Nat` fuel making recursion total
-/

namespace Golox

/-- Single-quote character, used to build the diagnostic messages of the
source (which wrap identifiers and operators in single quotes). -/
def sq : String := String.singleton (Char.ofNat 39)

/-- Wrap a string in single quotes, as the Go diagnostics do. -/
def q (s : String) : String := sq ++ s ++ sq

/-- Payload of a NUMBER or STRING token (Go: the `Literal any` field).
Go stores a `float64`; numbers are modelled as rationals. -/
inductive LitTok where
  | numLit (x : Rat)
  | strLit (s : String)
deriving DecidableEq, Repr

/-- token.Token: a kind (a plain string in the Go source: `type Type string`),
the lexeme, an optional literal payload, and a 1-based line. -/
structure Token where
  type : String
  lexeme : String
  literal : Option LitTok
  line : Nat
deriving DecidableEq, Repr

/-- The value stored in an `ast.Literal` node (Go: an `any` that the parser
fills with `nil`, `true`/`false`, a `float64` or a `string`). -/
inductive LitValue where
  | noval
  | bval (b : Bool)
  | nval (x : Rat)
  | sval (s : String)
deriving DecidableEq, Repr

/-- ast.Expr: the one closed family the interpreter dispatches on.  The Go
source makes statements implement the same `ast.Expr`/`ast.Stmt` interfaces
and `Interpreter.evaluate` switches over all variants at once, so a single
inductive is the faithful picture.  Constructor names follow the Go type
names. -/
inductive Expr where
  | Literal (value : LitValue)
  | Grouping (expression : Expr)
  | Unary (operator : Token) (right : Expr)
  | Binary (left : Expr) (operator : Token) (right : Expr)
  | Logical (left : Expr) (operator : Token) (right : Expr)
  | Variable (name : Token)
  | Assign (name : Token) (value : Expr)
  | Call (callee : Expr) (paren : Token) (arguments : List Expr)
  | Expression (expression : Expr)
  | Print (expression : Expr)
  | Var (name : Token) (initializer : Option Expr)
  | Block (statements : List Expr)
  | If (condition : Expr) (thenBranch : Expr) (elseBranch : Option Expr)
  | While (condition : Expr) (body : Expr)
  | Function (name : Token) (parameters : List Token) (body : List Expr)

/-- The `declaration` field of interpreter.Function: a pointer to the
`ast.Function` node. -/
structure FunctionDecl where
  name : Token
  parameters : List Token
  body : List Expr

/-- The two native functions installed by interpreter.New. -/
inductive NativeId where
  | clock
  | sqrt
deriving DecidableEq, Repr

/-- The runtime value domain (Go: `any`).  `nil` is the untyped Go nil —
the interpreter uses it both for the Lox nil literal and for the value of an
uninitialized variable.  `intv` mirrors the Go `int` produced by the `clock`
native (which returns an `int`, not a `float64`).  `fn` mirrors
interpreter.Function: it carries ONLY the declaration — the Go struct has no
closure-environment field. -/
inductive Value where
  | nil
  | bool (b : Bool)
  | num (x : Rat)
  | str (s : String)
  | intv (n : Int)
  | native (id : NativeId)
  | fn (declaration : FunctionDecl)

/-- The value an `ast.Literal` evaluates to (Go: returned unchanged). -/
def LitValue.toValue : LitValue → Value
  | .noval => .nil
  | .bval b => .bool b
  | .nval x => .num x
  | .sval s => .str s

/-- environment.Environment: its own name-to-value mapping plus a link to the
enclosing environment, here by store index. -/
structure Env where
  enclosing : Option Nat
  values : List (String × Value)

/-- Go `map[string]any` update (`e.Values[name] = value`): replace the
binding if present, otherwise add it. -/
def mapSet : List (String × Value) → String → Value → List (String × Value)
  | [], k, v => [(k, v)]
  | (k0, v0) :: rest, k, v =>
    if k0 = k then (k, v) :: rest else (k0, v0) :: mapSet rest k v

/-- Go map lookup `value, ok := e.Values[name]`. -/
def mapGet : List (String × Value) → String → Option Value
  | [], _ => none
  | (k0, v0) :: rest, k => if k0 = k then some v0 else mapGet rest k

/-- The interpreter's mutable world: the heap of environments (`envs`, an
indexed store; `NewEnclosed` appends), the current-environment pointer of
the `Interpreter` struct, everything printed to stdout, the process-wide
`logger.HadError` flag, and the wall clock read by the `clock` native. -/
structure InterpState where
  envs : List Env
  current : Nat
  output : List String
  hadError : Bool
  clockNow : Int

/-- The runtime errors of the interpreter.  `plain` is
logger.InterpreterError ("Error: msg"); `atToken` is
logger.InterpreterErrorWithLineNumber (which also sets HadError);
`goPanic` marks where the Go code would panic (failed type assertion or
out-of-range index); `outOfFuel` is the artifact of the fuel making the
embedding total. -/
inductive RunErr where
  | plain (msg : String)
  | atToken (line : Nat) (lexeme : String) (msg : String)
  | goPanic (msg : String)
  | outOfFuel
deriving DecidableEq, Repr

/-- Result of a step: Go's `(any, error)` pair together with the state the
step left behind (mutations persist even when an error is returned). -/
inductive Res (α : Type) where
  | ok (v : α) (s : InterpState)
  | err (e : RunErr) (s : InterpState)

/-- A stateful computation, Go style. -/
abbrev M (α : Type) : Type := InterpState → Res α

/-- The state a result left behind. -/
def Res.state : Res α → InterpState
  | .ok _ s => s
  | .err _ s => s

/-- The error of a result, when it is one. -/
def Res.errOf : Res α → Option RunErr
  | .ok _ _ => none
  | .err e _ => some e

/-- The value of a result, when it is one. -/
def Res.valOf : Res α → Option α
  | .ok v _ => some v
  | .err _ _ => none

/-! ## logger (the version the interpreter imports)

`logger.report` formats the diagnostic AND sets the process-wide `HadError`
flag.  `InterpreterError` builds a bare error without going through `report`;
`InterpreterErrorWithLineNumber` goes through `report` and therefore sets
`HadError`. -/

/-- logger.InterpreterError: `Error: <msg>` — does NOT touch HadError. -/
def interpreterError (msg : String) : M α := fun s => .err (.plain msg) s

/-- logger.InterpreterErrorWithLineNumber: goes through `report`, which sets
`HadError = true` before the error value is returned. -/
def interpreterErrorWithLineNumber (t : Token) (msg : String) : M α := fun s =>
  .err (.atToken t.line t.lexeme msg) { s with hadError := true }

/-- How `fmt.Print(err)` renders the two interpreter error shapes
(report uses `[line N] RuntimeError at lexeme: msg`). -/
def errText : RunErr → String
  | .plain msg => "Error: " ++ msg ++ "\n"
  | .atToken line lexeme msg =>
    "[line " ++ toString line ++ "] RuntimeError at " ++ q lexeme ++ ": " ++ msg ++ "\n"
  | .goPanic msg => "panic: " ++ msg
  | .outOfFuel => "out of fuel"

/-! ## environment -/

/-- environment.New / NewEnclosed: allocate a fresh environment in the store
whose `Enclosing` is the given environment; its id is the new store index. -/
def newEnclosed (parent : Nat) (s : InterpState) : Nat × InterpState :=
  (s.envs.length, { s with envs := s.envs ++ [{ enclosing := some parent, values := [] }] })

/-- environment.Define on the interpreter's current environment:
unconditionally set `values[name] = value` there.  (The `none` branch is
unreachable: the current pointer always indexes the store.) -/
def defineVar (name : String) (v : Value) (s : InterpState) : InterpState :=
  match s.envs[s.current]? with
  | some env => { s with envs := s.envs.set s.current { env with values := mapSet env.values name v } }
  | none => s

/-- Go `value == nil`: the interface is the untyped nil. -/
def isGoNil : Value → Bool
  | .nil => true
  | _ => false

/-- The message of environment.Get for a declared-but-uninitialized read. -/
def uninitializedMsg (x : String) : String :=
  "Variable " ++ q x ++ " used before being initialized."

/-- The message of environment.Get / Assign for an unknown name. -/
def undefinedMsg (x : String) : String :=
  "Undefined variable " ++ q x ++ "."

/-- environment.Get: look in the environment `envId`; a stored Go nil is the
uninitialized marker and errors; otherwise recurse into `Enclosing`; error at
the end of the chain.  `fuel` bounds the chain walk (the store's chains are
acyclic by construction, so callers pass `envs.length + 1`). -/
def getVar : Nat → Nat → Token → M Value
  | 0, _, _ => fun s => .err .outOfFuel s
  | fuel + 1, envId, name => fun s =>
    match s.envs[envId]? with
    | none => .err (.goPanic "nil environment") s
    | some env =>
      match mapGet env.values name.lexeme with
      | some v =>
        if isGoNil v then
          interpreterErrorWithLineNumber name (uninitializedMsg name.lexeme) s
        else .ok v s
      | none =>
        match env.enclosing with
        | some parent => getVar fuel parent name s
        | none => interpreterErrorWithLineNumber name (undefinedMsg name.lexeme) s

/-- Update environment `envId`'s mapping in the store. -/
def setEnvValues (s : InterpState) (envId : Nat) (name : String) (v : Value) : InterpState :=
  match s.envs[envId]? with
  | some env => { s with envs := s.envs.set envId { env with values := mapSet env.values name v } }
  | none => s

/-- environment.Assign: overwrite where the name exists, walking the chain;
never creates a binding; errors at the end of the chain. -/
def assignVar : Nat → Nat → Token → Value → M Value
  | 0, _, _, _ => fun s => .err .outOfFuel s
  | fuel + 1, envId, name, v => fun s =>
    match s.envs[envId]? with
    | none => .err (.goPanic "nil environment") s
    | some env =>
      match mapGet env.values name.lexeme with
      | some _ => .ok v (setEnvValues s envId name.lexeme v)
      | none =>
        match env.enclosing with
        | some parent => assignVar fuel parent name v s
        | none => interpreterErrorWithLineNumber name (undefinedMsg name.lexeme) s

/-! ## interpreter helpers -/

/-- interpreter.isTruthy: nil is falsey, booleans are themselves, everything
else is truthy. -/
def isTruthy : Value → Bool
  | .nil => false
  | .bool b => b
  | _ => true

mutual

/-- Structural equality of AST nodes (no claim exercises it; it only backs
the `==` comparison of two Function values, where Go compares the
declaration pointers). -/
def exprBeq : Expr → Expr → Bool
  | .Literal a, .Literal b => a == b
  | .Grouping a, .Grouping b => exprBeq a b
  | .Unary o1 r1, .Unary o2 r2 => o1 == o2 && exprBeq r1 r2
  | .Binary l1 o1 r1, .Binary l2 o2 r2 => exprBeq l1 l2 && o1 == o2 && exprBeq r1 r2
  | .Logical l1 o1 r1, .Logical l2 o2 r2 => exprBeq l1 l2 && o1 == o2 && exprBeq r1 r2
  | .Variable n1, .Variable n2 => n1 == n2
  | .Assign n1 v1, .Assign n2 v2 => n1 == n2 && exprBeq v1 v2
  | .Call c1 p1 a1, .Call c2 p2 a2 => exprBeq c1 c2 && p1 == p2 && exprListBeq a1 a2
  | .Expression a, .Expression b => exprBeq a b
  | .Print a, .Print b => exprBeq a b
  | .Var n1 none, .Var n2 none => n1 == n2
  | .Var n1 (some i1), .Var n2 (some i2) => n1 == n2 && exprBeq i1 i2
  | .Block s1, .Block s2 => exprListBeq s1 s2
  | .If c1 t1 none, .If c2 t2 none => exprBeq c1 c2 && exprBeq t1 t2
  | .If c1 t1 (some e1), .If c2 t2 (some e2) => exprBeq c1 c2 && exprBeq t1 t2 && exprBeq e1 e2
  | .While c1 b1, .While c2 b2 => exprBeq c1 c2 && exprBeq b1 b2
  | .Function n1 p1 b1, .Function n2 p2 b2 => n1 == n2 && p1 == p2 && exprListBeq b1 b2
  | _, _ => false

/-- Structural equality of AST node lists. -/
def exprListBeq : List Expr → List Expr → Bool
  | [], [] => true
  | a :: as0, b :: bs0 => exprBeq a b && exprListBeq as0 bs0
  | _, _ => false

end

/-- Structural stand-in for Go pointer equality of two `*ast.Function`
declarations stored in `Function` values (`a == b` on the structs compares
the declaration pointers). -/
def fnDeclBeq (d1 d2 : FunctionDecl) : Bool :=
  d1.name == d2.name && d1.parameters == d2.parameters && exprListBeq d1.body d2.body

/-- interpreter.isEqual via Go interface equality: nil only equals nil;
values of different dynamic types are unequal; same-type payloads compare
structurally.  `none` marks the one case where Go panics: `==` on two
`NativeFunction` values (the struct holds a func field, an uncomparable
type). -/
def isEqual : Value → Value → Option Bool
  | .nil, .nil => some true
  | .nil, _ => some false
  | _, .nil => some false
  | .bool a, .bool b => some (a == b)
  | .num a, .num b => some (a == b)
  | .str a, .str b => some (a == b)
  | .intv a, .intv b => some (a == b)
  | .native _, .native _ => none
  | .fn d1, .fn d2 => some (fnDeclBeq d1 d2)
  | _, _ => some false

/-- interpreter.checkNumberOperand: Go `int` and `float64` both pass. -/
def checkNumberOperand (operator : Token) (operand : Value) : M Unit := fun s =>
  match operand with
  | .intv _ => .ok () s
  | .num _ => .ok () s
  | _ => interpreterErrorWithLineNumber operator "Operand must be a number." s

/-- interpreter.checkNumberOperands. -/
def checkNumberOperands (operator : Token) (left right : Value) : M Unit := fun s =>
  match left with
  | .intv _ =>
    match right with
    | .intv _ => .ok () s
    | .num _ => .ok () s
    | _ => interpreterErrorWithLineNumber operator "Right operand must be a number." s
  | .num _ =>
    match right with
    | .intv _ => .ok () s
    | .num _ => .ok () s
    | _ => interpreterErrorWithLineNumber operator "Right operand must be a number." s
  | _ => interpreterErrorWithLineNumber operator "Left operand must be a number." s

/-- Go type assertion `v.(float64)` — panics on anything else (including the
`int` that `clock` returns). -/
def asFloat (v : Value) : M Rat := fun s =>
  match v with
  | .num x => .ok x s
  | _ => .err (.goPanic "interface conversion: interface is not float64") s

/-- Go `fmt.Sprintf("%v", x)` for a float64 carried in our Rat model:
integral values render without a fractional part. -/
def floatRepr (x : Rat) : String :=
  if x.den = 1 then toString x.num else toString x.num ++ "/" ++ toString x.den

/-- How `fmt.Println(v)` renders a value (the Go `print` statement prints the
bare `any`; note Go prints the nil interface as `<nil>`). -/
def printRepr : Value → String
  | .nil => "<nil>"
  | .bool b => if b then "true" else "false"
  | .num x => floatRepr x
  | .str s => s
  | .intv n => toString n
  | .native _ => "<native fn>"
  | .fn _ => "<fn>"

/-- Append one printed line to stdout. -/
def pushOutput (line : String) (s : InterpState) : InterpState :=
  { s with output := s.output ++ [line] }

/-- The callable a value type-asserts to (`c, ok := v.(Callable)`):
`Function` and `NativeFunction` are the implementations. -/
inductive CallTarget where
  | user (d : FunctionDecl)
  | nativeFn (id : NativeId)

/-- The type assertion `v.(Callable)`. -/
def callableOf : Value → Option CallTarget
  | .fn d => some (.user d)
  | .native id => some (.nativeFn id)
  | _ => none

/-- Callable.Arity: a user function's parameter count, a native's fixed
arity (clock 0, sqrt 1). -/
def arityOf : CallTarget → Nat
  | .user d => d.parameters.length
  | .nativeFn .clock => 0
  | .nativeFn .sqrt => 1

/-- NativeFunction.Call for the two installed natives.  `clock` returns the
wall clock in whole seconds as a Go `int`; `sqrt` type-asserts its first
argument to float64 (panicking otherwise) and returns `x*x` — the square,
exactly as the source does. -/
def callNative (id : NativeId) (args : List Value) : M Value := fun s =>
  match id with
  | .clock => .ok (.intv s.clockNow) s
  | .sqrt =>
    match args with
    | .num x :: _ => .ok (.num (x * x)) s
    | _ :: _ => .err (.goPanic "interface conversion: interface is not float64") s
    | [] => .err (.goPanic "index out of range") s

/-- The parameter-binding loop of Function.Call:
`for i, param := range f.declaration.Parameters { env.Define(param.Lexeme, arguments[i]) }`
(Go would panic on `arguments[i]` past the end; the arity check rules that
out). -/
def defineParams : List Token → List Value → M Unit
  | [], _ => fun s => .ok () s
  | p :: ps, a :: args => fun s => defineParams ps args (defineVar p.lexeme a s)
  | _ :: _, [] => fun s => .err (.goPanic "index out of range") s

/-! ## the evaluator

`eval` is Interpreter.evaluate with the per-variant methods inlined at their
dispatch sites; the explicit `Res` matches are Go's `if err != nil` returns.
`fuel` makes the recursion total; every recursive call strictly decreases
it, and exhaustion is the distinct `outOfFuel` error. -/

/-- The shared shape of the four comparison cases of Interpreter.binary. -/
def evalComparison (operator : Token) (lv rv : Value) (cmp : Rat → Rat → Bool) :
    M Value := fun s =>
  match checkNumberOperands operator lv rv s with
  | .err er s1 => .err er s1
  | .ok _ s1 =>
    match asFloat lv s1 with
    | .err er s2 => .err er s2
    | .ok a s2 =>
      match asFloat rv s2 with
      | .err er s3 => .err er s3
      | .ok b s3 => .ok (.bool (cmp a b)) s3

/-- The operator switch of Interpreter.binary (after both operands are
evaluated). -/
def evalBinaryOp (operator : Token) (lv rv : Value) : M Value := fun s =>
  match operator.type with
  | "-" =>
    match checkNumberOperands operator lv rv s with
    | .err er s1 => .err er s1
    | .ok _ s1 =>
      match asFloat lv s1 with
      | .err er s2 => .err er s2
      | .ok a s2 =>
        match asFloat rv s2 with
        | .err er s3 => .err er s3
        | .ok b s3 => .ok (.num (a - b)) s3
  | "/" =>
    match checkNumberOperands operator lv rv s with
    | .err er s1 => .err er s1
    | .ok _ s1 =>
      match asFloat rv s1 with
      | .err er s2 => .err er s2
      | .ok b s2 =>
        if b = 0 then
          interpreterErrorWithLineNumber operator
            "Division by zero. Eldritch horrors invoked." s2
        else
          match asFloat lv s2 with
          | .err er s3 => .err er s3
          | .ok a s3 => .ok (.num (a / b)) s3
  | "*" =>
    match checkNumberOperands operator lv rv s with
    | .err er s1 => .err er s1
    | .ok _ s1 =>
      match asFloat lv s1 with
      | .err er s2 => .err er s2
      | .ok a s2 =>
        match asFloat rv s2 with
        | .err er s3 => .err er s3
        | .ok b s3 => .ok (.num (a * b)) s3
  | "+" =>
    match lv, rv with
    | .num a, .num b => .ok (.num (a + b)) s
    | .num a, .str b => .ok (.str (floatRepr a ++ b)) s
    | .str a, .num b => .ok (.str (a ++ floatRepr b)) s
    | .str a, .str b => .ok (.str (a ++ b)) s
    | _, _ =>
      interpreterErrorWithLineNumber operator
        ("Operands of " ++ q "+" ++ " must both be either numbers or strings.") s
  | ">" => evalComparison operator lv rv (fun a b => a > b) s
  | ">=" => evalComparison operator lv rv (fun a b => a ≥ b) s
  | "<" => evalComparison operator lv rv (fun a b => a < b) s
  | "<=" => evalComparison operator lv rv (fun a b => a ≤ b) s
  | "!=" =>
    match isEqual lv rv with
    | some b => .ok (.bool (!b)) s
    | none => .err (.goPanic "comparing uncomparable type") s
  | "==" =>
    match isEqual lv rv with
    | some b => .ok (.bool b) s
    | none => .err (.goPanic "comparing uncomparable type") s
  | _ => interpreterError "Evaluation failed." s

mutual

/-- Interpreter.evaluate. -/
def eval : Nat → Expr → M Value
  | 0, _ => fun s => .err .outOfFuel s
  | fuel + 1, e => fun s =>
    match e with
    | .Literal v => .ok v.toValue s
    | .Grouping inner => eval fuel inner s
    | .Unary operator right =>
      match eval fuel right s with
      | .err er s1 => .err er s1
      | .ok rv s1 =>
        match operator.type with
        | "-" =>
          match checkNumberOperand operator rv s1 with
          | .err er s2 => .err er s2
          | .ok _ s2 =>
            match asFloat rv s2 with
            | .err er s3 => .err er s3
            | .ok x s3 => .ok (.num (-x)) s3
        | "!" => .ok (.bool (!isTruthy rv)) s1
        | _ => interpreterError "Unknown unary operator." s1
    | .Binary left operator right =>
      match eval fuel left s with
      | .err er s1 => .err er s1
      | .ok lv s1 =>
        match eval fuel right s1 with
        | .err er s2 => .err er s2
        | .ok rv s2 => evalBinaryOp operator lv rv s2
    | .Var name initializer =>
      match initializer with
      | none => .ok .nil (defineVar name.lexeme .nil s)
      | some init =>
        match eval fuel init s with
        | .err er s1 => .err er s1
        | .ok v s1 => .ok .nil (defineVar name.lexeme v s1)
    | .Assign name value =>
      match eval fuel value s with
      | .err er s1 => .err er s1
      | .ok v s1 =>
        match assignVar (s1.envs.length + 1) s1.current name v s1 with
        | .err er s2 => .err er s2
        | .ok _ s2 => .ok v s2
    | .Print inner =>
      match eval fuel inner s with
      | .err er s1 => .err er s1
      | .ok v s1 => .ok .nil (pushOutput (printRepr v) s1)
    | .Expression inner => eval fuel inner s
    | .Variable name => getVar (s.envs.length + 1) s.current name s
    | .Block statements =>
      -- i.block: save the current environment, install a fresh enclosed
      -- one, and restore the saved one on both the error and normal paths.
      let prev := s.current
      let (frame, s1) := newEnclosed prev s
      match evalSeq fuel statements { s1 with current := frame } with
      | .err er s2 => .err er { s2 with current := prev }
      | .ok _ s2 => .ok .nil { s2 with current := prev }
    | .If condition thenBranch elseBranch =>
      match eval fuel condition s with
      | .err er s1 => .err er s1
      | .ok c s1 =>
        if isTruthy c then eval fuel thenBranch s1
        else
          match elseBranch with
          | some els => eval fuel els s1
          | none => .ok .nil s1
    | .Logical left operator right =>
      match eval fuel left s with
      | .err er s1 => .err er s1
      | .ok lv s1 =>
        if operator.type = "or" then
          if isTruthy lv then .ok lv s1 else eval fuel right s1
        else if operator.type = "and" then
          if !isTruthy lv then .ok lv s1 else eval fuel right s1
        else eval fuel right s1
    | .While condition body =>
      match eval fuel condition s with
      | .err er s1 => .err er s1
      | .ok c s1 =>
        if !isTruthy c then .ok .nil s1
        else
          match eval fuel body s1 with
          | .err er s2 => .err er s2
          | .ok _ s2 => eval fuel (.While condition body) s2
    | .Call callee _ arguments =>
      match eval fuel callee s with
      | .err er s1 => .err er s1
      | .ok v s1 =>
        match evalArgs fuel arguments s1 with
        | .err er s2 => .err er s2
        | .ok evArgs s2 =>
          match callableOf v with
          | none => interpreterError "Can only call functions and classes." s2
          | some c =>
            if evArgs.length ≠ arityOf c then
              interpreterError
                ("Expected " ++ toString (arityOf c) ++ " arguments but got "
                  ++ toString evArgs.length ++ ".") s2
            else
              match c with
              | .user d => functionCall fuel d evArgs s2
              | .nativeFn id => callNative id evArgs s2
    | .Function name parameters body =>
      -- `Function{declaration: ...}` captures no environment; the name is
      -- bound in the current environment.
      .ok .nil (defineVar name.lexeme (.fn ⟨name, parameters, body⟩) s)

/-- The statement loops of i.block and Function.Call: evaluate each
statement in order, stopping at the first error. -/
def evalSeq : Nat → List Expr → M Unit
  | 0, _ => fun s => .err .outOfFuel s
  | _ + 1, [] => fun s => .ok () s
  | fuel + 1, e :: rest => fun s =>
    match eval fuel e s with
    | .err er s1 => .err er s1
    | .ok _ s1 => evalSeq fuel rest s1

/-- The argument loop of the Call case: evaluate arguments left to right,
stopping at the first error. -/
def evalArgs : Nat → List Expr → M (List Value)
  | 0, _ => fun s => .err .outOfFuel s
  | _ + 1, [] => fun s => .ok [] s
  | fuel + 1, a :: rest => fun s =>
    match eval fuel a s with
    | .err er s1 => .err er s1
    | .ok v s1 =>
      match evalArgs fuel rest s1 with
      | .err er s2 => .err er s2
      | .ok vs s2 => .ok (v :: vs) s2

/-- Function.Call: make the interpreter's current environment a fresh one
enclosing the CURRENT (call-time) environment, define the parameters there,
run the body, and return Go nil.  Note there is no restoration of the
previous environment on any path. -/
def functionCall : Nat → FunctionDecl → List Value → M Value
  | 0, _, _ => fun s => .err .outOfFuel s
  | fuel + 1, d, args => fun s =>
    let (frame, s1) := newEnclosed s.current s
    match defineParams d.parameters args { s1 with current := frame } with
    | .err er s2 => .err er s2
    | .ok _ s2 =>
      match evalSeq fuel d.body s2 with
      | .err er s3 => .err er s3
      | .ok _ s3 => .ok .nil s3

end

/-- Interpreter.Interpret: run the top-level statements in order; on the
first error, print it (`fmt.Print(err)`) and stop — the error is not
re-raised and the interpreter stays usable. -/
def interpret (fuel : Nat) : List Expr → M Unit
  | [] => fun s => .ok () s
  | e :: rest => fun s =>
    match eval fuel e s with
    | .err er s1 => .ok () (pushOutput (errText er) s1)
    | .ok _ s1 => interpret fuel rest s1

/-- interpreter.New: the globals environment pre-populated with the two
natives; the current environment is the globals. -/
def initialState : InterpState :=
  { envs := [{ enclosing := none,
               values := [("clock", .native .clock), ("sqrt", .native .sqrt)] }],
    current := 0, output := [], hadError := false, clockNow := 0 }

/-! ## observers used to state concrete-run theorems -/

/-- The `Enclosing` pointer of environment `i` in the store. -/
def envEnclosingAt (s : InterpState) (i : Nat) : Option (Option Nat) :=
  (s.envs[i]?).map Env.enclosing

/-- The value bound to `k` in environment `i` of the store. -/
def valueAt (s : InterpState) (i : Nat) (k : String) : Option Value :=
  match s.envs[i]? with
  | some env => mapGet env.values k
  | none => none

/-- Whether a value is the number `x`. -/
def Value.isNumV (x : Rat) : Value → Bool
  | .num y => y == x
  | _ => false

/-- Whether environment `i` binds `k` to the number `x`. -/
def numAt (s : InterpState) (i : Nat) (k : String) (x : Rat) : Bool :=
  match valueAt s i k with
  | some v => v.isNumV x
  | none => false

/-- Opening-brace character. -/
def chLBrace : Char := Char.ofNat 123

/-- Closing-brace character. -/
def chRBrace : Char := Char.ofNat 125

/-- token.LEFT_BRACE. -/
def LEFT_BRACE : String := String.singleton chLBrace

/-- token.RIGHT_BRACE. -/
def RIGHT_BRACE : String := String.singleton chRBrace

/-! ## parser (the statement parser of the source)

Translated function by function.  The parser state is the token list, the
`current` index, and the diagnostics printed by `Parse` so far; errors are
the formatted strings of logger.ParserError.  `fuel` makes the recursion
total; fuel exhaustion is a parse error that no claim's input reaches. -/

/-- Parser state. -/
structure PState where
  tokens : List Token
  current : Nat
  diags : List String

/-- Go's `(ast.Expr, error)` result plus the state. -/
inductive PRes (α : Type) where
  | pok (v : α) (p : PState)
  | perr (msg : String) (p : PState)

/-- A parser computation. -/
abbrev PM (α : Type) : Type := PState → PRes α

/-- The token an out-of-range index yields (the Go code would panic; with an
EOF-terminated token list this is unreachable). -/
def invalidTok : Token := { type := "__INVALID__", lexeme := "", literal := none, line := 0 }

/-- Parser.peek. -/
def peekT (p : PState) : Token := p.tokens.getD p.current invalidTok

/-- Parser.previous. -/
def previousT (p : PState) : Token := p.tokens.getD (p.current - 1) invalidTok

/-- Parser.isAtEnd. -/
def isAtEndT (p : PState) : Bool := (peekT p).type = "EOF"

/-- Parser.advance. -/
def advanceT (p : PState) : PState :=
  if isAtEndT p then p else { p with current := p.current + 1 }

/-- Parser.check. -/
def checkP (p : PState) (t : String) : Bool :=
  if isAtEndT p then false else (peekT p).type = t

/-- Parser.match: advance past the first of the given kinds that is next. -/
def matchP (ts : List String) (p : PState) : Bool × PState :=
  match ts.find? (fun t => checkP p t) with
  | some _ => (true, advanceT p)
  | none => (false, p)

/-- logger.ParserError's formatted diagnostic. -/
def parserErrorMsg (t : Token) (message : String) : String :=
  if t.type = "EOF" then
    "[line " ++ toString t.line ++ "] ParserError at end: " ++ message
  else
    "[line " ++ toString t.line ++ "] ParserError at " ++ q t.lexeme ++ ": " ++ message

/-- Parser.consume where the caller checks the error. -/
def consumeT (t : String) (message : String) : PM Token := fun p =>
  if checkP p t then
    let p1 := advanceT p
    .pok (previousT p1) p1
  else .perr (parserErrorMsg (peekT p) message) p

/-- Parser.consume at the two forStatement call sites that DISCARD the
returned error: the only effect that survives is advance-on-match. -/
def consumeDrop (t : String) : PM Unit := fun p =>
  if checkP p t then .pok () (advanceT p) else .pok () p

/-- The fuel-exhaustion marker (an artifact of the embedding). -/
def outOfFuelMsg : String := "out of fuel"

/-- Parser.synchronize's loop.  Faithful to the Go `switch`: the empty
`case` arms for class/for/fun/if/print/return/var fall OUT of the switch
(Go has no implicit fallthrough), so only a `while` token — or a consumed
`;`, or EOF — stops the scan. -/
def syncLoop : Nat → PState → PState
  | 0, p => p
  | fuel + 1, p =>
    if isAtEndT p then p
    else if (previousT p).type = ";" then p
    else if (peekT p).type = "while" then p
    else syncLoop fuel (advanceT p)

/-- Parser.synchronize: advance once, then scan to a statement boundary.
The fuel bound suffices for every EOF-terminated token list. -/
def synchronize (p : PState) : PState := syncLoop (p.tokens.length + 1) (advanceT p)

/-- The value of an `ast.Literal` made from a NUMBER or STRING token
(`&ast.Literal{Value: parser.previous().Literal}`). -/
def litOfTok : Option LitTok → LitValue
  | some (.numLit x) => .nval x
  | some (.strLit s) => .sval s
  | none => .noval

/-- The desugaring tail of Parser.forStatement, exactly the source's three
`if`s: wrap body and increment (when present) in a Block; wrap in a While
ONLY when a condition is present; wrap in a Block with the initializer when
present. -/
def forDesugar (initializer condition increment : Option Expr) (body : Expr) : Expr :=
  let body1 :=
    match increment with
    | some inc => Expr.Block [body, Expr.Expression inc]
    | none => body
  let body2 :=
    match condition with
    | some c => Expr.While c body1
    | none => body1
  match initializer with
  | some i => Expr.Block [i, body2]
  | none => body2

mutual

/-- Parser.declaration. -/
def declaration : Nat → PM Expr
  | 0 => fun p => .perr outOfFuelMsg p
  | fuel + 1 => fun p =>
    match matchP ["fun"] p with
    | (true, p1) => functionP fuel "function" p1
    | (false, p1) =>
      match matchP ["var"] p1 with
      | (true, p2) => varDeclaration fuel p2
      | (false, p2) => statement fuel p2

/-- Parser.function. -/
def functionP : Nat → String → PM Expr
  | 0, _ => fun p => .perr outOfFuelMsg p
  | fuel + 1, kind => fun p =>
    match consumeT "IDENTIFIER" ("Expected " ++ kind ++ " name.") p with
    | .perr m p1 => .perr m p1
    | .pok name p1 =>
      match consumeT "(" ("Expected " ++ q "(" ++ " after " ++ kind ++ " name.") p1 with
      | .perr m p2 => .perr m p2
      | .pok _ p2 =>
        match (if checkP p2 ")" then .pok [] p2 else paramsLoop fuel [] p2 : PRes (List Token)) with
        | .perr m p3 => .perr m p3
        | .pok parameters p3 =>
          match consumeT ")" ("Expected " ++ q ")" ++ " after parameters.") p3 with
          | .perr m p4 => .perr m p4
          | .pok _ p4 =>
            match consumeT LEFT_BRACE ("Expected " ++ q LEFT_BRACE ++ " before " ++ kind ++ " body.") p4 with
            | .perr m p5 => .perr m p5
            | .pok _ p5 =>
              match blockLoop fuel [] p5 with
              | .perr m p6 => .perr m p6
              | .pok body p6 => .pok (.Function name parameters body) p6

/-- The parameter loop of Parser.function (max 255). -/
def paramsLoop : Nat → List Token → PM (List Token)
  | 0, _ => fun p => .perr outOfFuelMsg p
  | fuel + 1, acc => fun p =>
    if acc.length ≥ 255 then
      .perr (parserErrorMsg (peekT p) "Cannot have more than 255 parameters.") p
    else
      match consumeT "IDENTIFIER" "Expected parameter name." p with
      | .perr m p1 => .perr m p1
      | .pok param p1 =>
        match matchP [","] p1 with
        | (true, p2) => paramsLoop fuel (acc ++ [param]) p2
        | (false, p2) => .pok (acc ++ [param]) p2

/-- Parser.statement. -/
def statement : Nat → PM Expr
  | 0 => fun p => .perr outOfFuelMsg p
  | fuel + 1 => fun p =>
    match matchP ["print"] p with
    | (true, p1) => printStatement fuel p1
    | (false, p1) =>
      match matchP ["while"] p1 with
      | (true, p2) => whileStatement fuel p2
      | (false, p2) =>
        match matchP [LEFT_BRACE] p2 with
        | (true, p3) =>
          match blockLoop fuel [] p3 with
          | .perr m p4 => .perr m p4
          | .pok statements p4 => .pok (.Block statements) p4
        | (false, p3) =>
          match matchP ["for"] p3 with
          | (true, p4) => forStatement fuel p4
          | (false, p4) =>
            match matchP ["if"] p4 with
            | (true, p5) => ifStatement fuel p5
            | (false, p5) => expressionStatement fuel p5

/-- Parser.forStatement, first phase: `(`, then the initializer clause. -/
def forStatement : Nat → PM Expr
  | 0 => fun p => .perr outOfFuelMsg p
  | fuel + 1 => fun p =>
    match consumeT "(" ("Expected " ++ q "(" ++ " after " ++ q "for" ++ ".") p with
    | .perr m p1 => .perr m p1
    | .pok _ p1 =>
      match matchP [";"] p1 with
      | (true, p2) => forAfterInit fuel none p2
      | (false, p2) =>
        match matchP ["var"] p2 with
        | (true, p3) =>
          match varDeclaration fuel p3 with
          | .perr m p4 => .perr m p4
          | .pok i p4 => forAfterInit fuel (some i) p4
        | (false, p3) =>
          match expressionStatement fuel p3 with
          | .perr m p4 => .perr m p4
          | .pok i p4 => forAfterInit fuel (some i) p4

/-- forStatement after the initializer: the optional condition, then a
consume of `;` whose error the source DISCARDS. -/
def forAfterInit : Nat → Option Expr → PM Expr
  | 0, _ => fun p => .perr outOfFuelMsg p
  | fuel + 1, initializer => fun p =>
    if checkP p ";" then
      match consumeDrop ";" p with
      | .pok _ p1 => forAfterCond fuel initializer none p1
      | .perr m p1 => .perr m p1
    else
      match expression fuel p with
      | .perr m p1 => .perr m p1
      | .pok c p1 =>
        match consumeDrop ";" p1 with
        | .pok _ p2 => forAfterCond fuel initializer (some c) p2
        | .perr m p2 => .perr m p2

/-- forStatement after the condition: the optional increment, then a
consume of `)` whose error the source DISCARDS. -/
def forAfterCond : Nat → Option Expr → Option Expr → PM Expr
  | 0, _, _ => fun p => .perr outOfFuelMsg p
  | fuel + 1, initializer, condition => fun p =>
    if checkP p ")" then
      match consumeDrop ")" p with
      | .pok _ p1 => forAfterIncr fuel initializer condition none p1
      | .perr m p1 => .perr m p1
    else
      match expression fuel p with
      | .perr m p1 => .perr m p1
      | .pok u p1 =>
        match consumeDrop ")" p1 with
        | .pok _ p2 => forAfterIncr fuel initializer condition (some u) p2
        | .perr m p2 => .perr m p2

/-- forStatement's last phase: parse the body, then desugar. -/
def forAfterIncr : Nat → Option Expr → Option Expr → Option Expr → PM Expr
  | 0, _, _, _ => fun p => .perr outOfFuelMsg p
  | fuel + 1, initializer, condition, increment => fun p =>
    match statement fuel p with
    | .perr m p1 => .perr m p1
    | .pok body p1 => .pok (forDesugar initializer condition increment body) p1

/-- Parser.ifStatement. -/
def ifStatement : Nat → PM Expr
  | 0 => fun p => .perr outOfFuelMsg p
  | fuel + 1 => fun p =>
    match consumeT "(" ("Expected " ++ q "(" ++ " after " ++ q "if" ++ ".") p with
    | .perr m p1 => .perr m p1
    | .pok _ p1 =>
      match expression fuel p1 with
      | .perr m p2 => .perr m p2
      | .pok condition p2 =>
        match consumeT ")" ("Expected " ++ q ")" ++ " after if condition.") p2 with
        | .perr m p3 => .perr m p3
        | .pok _ p3 =>
          match statement fuel p3 with
          | .perr m p4 => .perr m p4
          | .pok thenBranch p4 =>
            match matchP ["else"] p4 with
            | (true, p5) =>
              match statement fuel p5 with
              | .perr m p6 => .perr m p6
              | .pok elseBranch p6 => .pok (.If condition thenBranch (some elseBranch)) p6
            | (false, p5) => .pok (.If condition thenBranch none) p5

/-- Parser.printStatement. -/
def printStatement : Nat → PM Expr
  | 0 => fun p => .perr outOfFuelMsg p
  | fuel + 1 => fun p =>
    match expression fuel p with
    | .perr m p1 => .perr m p1
    | .pok value p1 =>
      match consumeT ";" ("Expected " ++ q ";" ++ " after value.") p1 with
      | .perr m p2 => .perr m p2
      | .pok _ p2 => .pok (.Print value) p2

/-- Parser.varDeclaration. -/
def varDeclaration : Nat → PM Expr
  | 0 => fun p => .perr outOfFuelMsg p
  | fuel + 1 => fun p =>
    match consumeT "IDENTIFIER" "Expected variable name." p with
    | .perr m p1 => .perr m p1
    | .pok name p1 =>
      match matchP ["="] p1 with
      | (true, p2) =>
        match expression fuel p2 with
        | .perr m p3 => .perr m p3
        | .pok init p3 =>
          match consumeT ";" ("Expected " ++ q ";" ++ " after variable declaration.") p3 with
          | .perr m p4 => .perr m p4
          | .pok _ p4 => .pok (.Var name (some init)) p4
      | (false, p2) =>
        match consumeT ";" ("Expected " ++ q ";" ++ " after variable declaration.") p2 with
        | .perr m p3 => .perr m p3
        | .pok _ p3 => .pok (.Var name none) p3

/-- Parser.whileStatement. -/
def whileStatement : Nat → PM Expr
  | 0 => fun p => .perr outOfFuelMsg p
  | fuel + 1 => fun p =>
    match consumeT "(" ("Expected " ++ q "(" ++ " after " ++ q "while" ++ ".") p with
    | .perr m p1 => .perr m p1
    | .pok _ p1 =>
      match expression fuel p1 with
      | .perr m p2 => .perr m p2
      | .pok condition p2 =>
        match consumeT ")" ("Expected " ++ q ")" ++ " after while condition.") p2 with
        | .perr m p3 => .perr m p3
        | .pok _ p3 =>
          match statement fuel p3 with
          | .perr m p4 => .perr m p4
          | .pok body p4 => .pok (.While condition body) p4

/-- Parser.expressionStatement. -/
def expressionStatement : Nat → PM Expr
  | 0 => fun p => .perr outOfFuelMsg p
  | fuel + 1 => fun p =>
    match expression fuel p with
    | .perr m p1 => .perr m p1
    | .pok expr p1 =>
      match consumeT ";" ("Expected " ++ q ";" ++ " after expression.") p1 with
      | .perr m p2 => .perr m p2
      | .pok _ p2 => .pok (.Expression expr) p2

/-- Parser.block's declaration loop (the `}` consume follows it). -/
def blockLoop : Nat → List Expr → PM (List Expr)
  | 0, _ => fun p => .perr outOfFuelMsg p
  | fuel + 1, acc => fun p =>
    if !checkP p RIGHT_BRACE && !isAtEndT p then
      match declaration fuel p with
      | .perr m p1 => .perr m p1
      | .pok stmt p1 => blockLoop fuel (acc ++ [stmt]) p1
    else
      match consumeT RIGHT_BRACE ("Expected " ++ q RIGHT_BRACE ++ " after block.") p with
      | .perr m p1 => .perr m p1
      | .pok _ p1 => .pok acc p1

/-- Parser.expression. -/
def expression : Nat → PM Expr
  | 0 => fun p => .perr outOfFuelMsg p
  | fuel + 1 => fun p => assignment fuel p

/-- Parser.assignment: parse the l-value as a general `or` expression; on
`=`, recurse for the r-value and only accept a Variable l-value. -/
def assignment : Nat → PM Expr
  | 0 => fun p => .perr outOfFuelMsg p
  | fuel + 1 => fun p =>
    match orE fuel p with
    | .perr m p1 => .perr m p1
    | .pok expr p1 =>
      match matchP ["="] p1 with
      | (true, p2) =>
        let equals := previousT p2
        match assignment fuel p2 with
        | .perr m p3 => .perr m p3
        | .pok value p3 =>
          match expr with
          | .Variable name => .pok (.Assign name value) p3
          | _ => .perr (parserErrorMsg equals "Invalid assignment target.") p3
      | (false, p2) => .pok expr p2

/-- Parser.or. -/
def orE : Nat → PM Expr
  | 0 => fun p => .perr outOfFuelMsg p
  | fuel + 1 => fun p =>
    match andE fuel p with
    | .perr m p1 => .perr m p1
    | .pok expr p1 => orLoop fuel expr p1

/-- The `or` iteration. -/
def orLoop : Nat → Expr → PM Expr
  | 0, _ => fun p => .perr outOfFuelMsg p
  | fuel + 1, expr => fun p =>
    match matchP ["or"] p with
    | (true, p1) =>
      let operator := previousT p1
      match andE fuel p1 with
      | .perr m p2 => .perr m p2
      | .pok right p2 => orLoop fuel (.Logical expr operator right) p2
    | (false, p1) => .pok expr p1

/-- Parser.and. -/
def andE : Nat → PM Expr
  | 0 => fun p => .perr outOfFuelMsg p
  | fuel + 1 => fun p =>
    match equalityE fuel p with
    | .perr m p1 => .perr m p1
    | .pok expr p1 => andLoop fuel expr p1

/-- The `and` iteration. -/
def andLoop : Nat → Expr → PM Expr
  | 0, _ => fun p => .perr outOfFuelMsg p
  | fuel + 1, expr => fun p =>
    match matchP ["and"] p with
    | (true, p1) =>
      let operator := previousT p1
      match equalityE fuel p1 with
      | .perr m p2 => .perr m p2
      | .pok right p2 => andLoop fuel (.Logical expr operator right) p2
    | (false, p1) => .pok expr p1

/-- Parser.equality. -/
def equalityE : Nat → PM Expr
  | 0 => fun p => .perr outOfFuelMsg p
  | fuel + 1 => fun p =>
    match comparisonE fuel p with
    | .perr m p1 => .perr m p1
    | .pok expr p1 => equalityLoop fuel expr p1

/-- The `!=` / `==` iteration. -/
def equalityLoop : Nat → Expr → PM Expr
  | 0, _ => fun p => .perr outOfFuelMsg p
  | fuel + 1, expr => fun p =>
    match matchP ["!=", "=="] p with
    | (true, p1) =>
      let operator := previousT p1
      match comparisonE fuel p1 with
      | .perr m p2 => .perr m p2
      | .pok right p2 => equalityLoop fuel (.Binary expr operator right) p2
    | (false, p1) => .pok expr p1

/-- Parser.comparison. -/
def comparisonE : Nat → PM Expr
  | 0 => fun p => .perr outOfFuelMsg p
  | fuel + 1 => fun p =>
    match termE fuel p with
    | .perr m p1 => .perr m p1
    | .pok expr p1 => comparisonLoop fuel expr p1

/-- The `>`, `>=`, `<`, `<=` iteration. -/
def comparisonLoop : Nat → Expr → PM Expr
  | 0, _ => fun p => .perr outOfFuelMsg p
  | fuel + 1, expr => fun p =>
    match matchP [">", ">=", "<", "<="] p with
    | (true, p1) =>
      let operator := previousT p1
      match termE fuel p1 with
      | .perr m p2 => .perr m p2
      | .pok right p2 => comparisonLoop fuel (.Binary expr operator right) p2
    | (false, p1) => .pok expr p1

/-- Parser.term (addition and subtraction). -/
def termE : Nat → PM Expr
  | 0 => fun p => .perr outOfFuelMsg p
  | fuel + 1 => fun p =>
    match factorE fuel p with
    | .perr m p1 => .perr m p1
    | .pok expr p1 => termLoop fuel expr p1

/-- The `-` / `+` iteration. -/
def termLoop : Nat → Expr → PM Expr
  | 0, _ => fun p => .perr outOfFuelMsg p
  | fuel + 1, expr => fun p =>
    match matchP ["-", "+"] p with
    | (true, p1) =>
      let operator := previousT p1
      match factorE fuel p1 with
      | .perr m p2 => .perr m p2
      | .pok right p2 => termLoop fuel (.Binary expr operator right) p2
    | (false, p1) => .pok expr p1

/-- Parser.factor (multiplication and division). -/
def factorE : Nat → PM Expr
  | 0 => fun p => .perr outOfFuelMsg p
  | fuel + 1 => fun p =>
    match unaryE fuel p with
    | .perr m p1 => .perr m p1
    | .pok expr p1 => factorLoop fuel expr p1

/-- The `/` / `*` iteration. -/
def factorLoop : Nat → Expr → PM Expr
  | 0, _ => fun p => .perr outOfFuelMsg p
  | fuel + 1, expr => fun p =>
    match matchP ["/", "*"] p with
    | (true, p1) =>
      let operator := previousT p1
      match unaryE fuel p1 with
      | .perr m p2 => .perr m p2
      | .pok right p2 => factorLoop fuel (.Binary expr operator right) p2
    | (false, p1) => .pok expr p1

/-- Parser.unary. -/
def unaryE : Nat → PM Expr
  | 0 => fun p => .perr outOfFuelMsg p
  | fuel + 1 => fun p =>
    match matchP ["!", "-"] p with
    | (true, p1) =>
      let operator := previousT p1
      match unaryE fuel p1 with
      | .perr m p2 => .perr m p2
      | .pok right p2 => .pok (.Unary operator right) p2
    | (false, p1) => callE fuel p1

/-- Parser.call. -/
def callE : Nat → PM Expr
  | 0 => fun p => .perr outOfFuelMsg p
  | fuel + 1 => fun p =>
    match primary fuel p with
    | .perr m p1 => .perr m p1
    | .pok expr p1 => callLoop fuel expr p1

/-- The chained-call iteration. -/
def callLoop : Nat → Expr → PM Expr
  | 0, _ => fun p => .perr outOfFuelMsg p
  | fuel + 1, expr => fun p =>
    match matchP ["("] p with
    | (true, p1) =>
      match finishCall fuel expr p1 with
      | .perr m p2 => .perr m p2
      | .pok expr2 p2 => callLoop fuel expr2 p2
    | (false, p1) => .pok expr p1

/-- Parser.finishCall. -/
def finishCall : Nat → Expr → PM Expr
  | 0, _ => fun p => .perr outOfFuelMsg p
  | fuel + 1, callee => fun p =>
    match (if checkP p ")" then .pok [] p else argsLoop fuel [] p : PRes (List Expr)) with
    | .perr m p1 => .perr m p1
    | .pok arguments p1 =>
      match consumeT ")" ("Expected " ++ q ")" ++ " after function arguments.") p1 with
      | .perr m p2 => .perr m p2
      | .pok paren p2 => .pok (.Call callee paren arguments) p2

/-- The argument loop of Parser.finishCall (max 255). -/
def argsLoop : Nat → List Expr → PM (List Expr)
  | 0, _ => fun p => .perr outOfFuelMsg p
  | fuel + 1, acc => fun p =>
    if acc.length ≥ 255 then
      .perr (parserErrorMsg (peekT p) "Cannot have more than 255 arguments.") p
    else
      match expression fuel p with
      | .perr m p1 => .perr m p1
      | .pok argument p1 =>
        match matchP [","] p1 with
        | (true, p2) => argsLoop fuel (acc ++ [argument]) p2
        | (false, p2) => .pok (acc ++ [argument]) p2

/-- Parser.primary. -/
def primary : Nat → PM Expr
  | 0 => fun p => .perr outOfFuelMsg p
  | fuel + 1 => fun p =>
    match matchP ["false"] p with
    | (true, p1) => .pok (.Literal (.bval false)) p1
    | (false, p1) =>
      match matchP ["true"] p1 with
      | (true, p2) => .pok (.Literal (.bval true)) p2
      | (false, p2) =>
        match matchP ["nil"] p2 with
        | (true, p3) => .pok (.Literal .noval) p3
        | (false, p3) =>
          match matchP ["NUMBER", "STRING"] p3 with
          | (true, p4) => .pok (.Literal (litOfTok (previousT p4).literal)) p4
          | (false, p4) =>
            match matchP ["("] p4 with
            | (true, p5) =>
              match expression fuel p5 with
              | .perr m p6 => .perr m p6
              | .pok expr p6 =>
                match consumeT ")" ("Expected " ++ q ")" ++ " after expression.") p6 with
                | .perr m p7 => .perr m p7
                | .pok _ p7 => .pok (.Grouping expr) p7
            | (false, p5) =>
              match matchP ["IDENTIFIER"] p5 with
              | (true, p6) => .pok (.Variable (previousT p6)) p6
              | (false, p6) => .perr (parserErrorMsg (peekT p6) "Expected expression.") p6

end

/-- Parser.Parse's loop: parse declarations until EOF, printing each error
and synchronizing past it. -/
def parseLoop : Nat → PState → List Expr × PState
  | 0, p => ([], p)
  | fuel + 1, p =>
    if isAtEndT p then ([], p)
    else
      match declaration fuel p with
      | .pok stmt p1 =>
        let (rest, p2) := parseLoop fuel p1
        (stmt :: rest, p2)
      | .perr msg p1 =>
        parseLoop fuel (synchronize { p1 with diags := p1.diags ++ [msg] })

/-- parser.New + Parser.Parse on a token list. -/
def Parse (fuel : Nat) (tokens : List Token) : List Expr × PState :=
  parseLoop fuel { tokens := tokens, current := 0, diags := [] }

/-- Whether an AST node is a While statement. -/
def isWhile : Expr → Bool
  | .While _ _ => true
  | _ => false

/-- The for-desugaring the SPEC claims (for comparison with the source's
`forDesugar`): per §4.2, the While is always produced, with the literal
`true` standing in for an absent condition. -/
def specForDesugar (initializer condition increment : Option Expr) (body : Expr) : Expr :=
  let body1 :=
    match increment with
    | some inc => Expr.Block [body, Expr.Expression inc]
    | none => body
  let body2 :=
    Expr.While (match condition with
                | some c => c
                | none => Expr.Literal (.bval true)) body1
  match initializer with
  | some i => Expr.Block [i, body2]
  | none => body2

/-- An IDENTIFIER token. -/
def identTok (name : String) (line : Nat) : Token :=
  { type := "IDENTIFIER", lexeme := name, literal := none, line := line }

/-- A keyword or punctuation token (its Type IS its lexeme). -/
def kwTok (s : String) : Token := { type := s, lexeme := s, literal := none, line := 1 }

/-- The EOF token. -/
def eofTok : Token := { type := "EOF", lexeme := "", literal := none, line := 1 }

/-- A NUMBER `1` token. -/
def num1Tok : Token := { type := "NUMBER", lexeme := "1", literal := some (.numLit 1), line := 1 }

/-- Tokens `+ var x ; <EOF>`: a syntax error at `+`, with a var declaration next. -/
def c5TokensA : List Token := [kwTok "+", kwTok "var", identTok "x" 1, kwTok ";", eofTok]

/-- Tokens `+ while <EOF>`: a syntax error at `+`, with `while` next. -/
def c5TokensB : List Token := [kwTok "+", kwTok "while", eofTok]

/-- The parser state in which `Parse` invokes synchronize for `c5TokensA`
(the error at `+` consumed nothing). -/
def c5StateA : PState := { tokens := c5TokensA, current := 0, diags := [] }

/-- Likewise for `c5TokensB`. -/
def c5StateB : PState := { tokens := c5TokensB, current := 0, diags := [] }

/-- Tokens of `for (;;) print 1;`. -/
def c6Tokens : List Token :=
  [kwTok "for", kwTok "(", kwTok ";", kwTok ";", kwTok ")",
   kwTok "print", num1Tok, kwTok ";", eofTok]

/-- The state in which `statement` invokes forStatement on `c6Tokens` (the
`for` already consumed). -/
def c6ForState : PState := { tokens := c6Tokens, current := 1, diags := [] }

/-- Where forStatement ends on `c6Tokens`. -/
def c6ForStateEnd : PState := { tokens := c6Tokens, current := 8, diags := [] }

/-! ## structural lemmas about the environment primitives -/

theorem defineVar_current (k : String) (v : Value) (s : InterpState) :
    (defineVar k v s).current = s.current := by
  unfold defineVar
  cases s.envs[s.current]? <;> rfl

theorem defineVar_envs_length (k : String) (v : Value) (s : InterpState) :
    (defineVar k v s).envs.length = s.envs.length := by
  unfold defineVar
  cases s.envs[s.current]? <;> simp [List.length_set]

theorem defineVar_enclosingAt (k : String) (v : Value) (s : InterpState) (i : Nat) :
    envEnclosingAt (defineVar k v s) i = envEnclosingAt s i := by
  unfold defineVar envEnclosingAt
  cases h : s.envs[s.current]? with
  | none => rfl
  | some env =>
    by_cases hi : s.current = i
    · subst hi
      have hlt : s.current < s.envs.length := by
        by_contra hge
        simp [List.getElem?_eq_none (Nat.le_of_not_lt hge)] at h
      simp [List.getElem?_set_self hlt, h]
    · simp [List.getElem?_set_ne hi]

/-- The pure effect of the parameter-binding loop when it succeeds. -/
def bindParams : List Token → List Value → InterpState → InterpState
  | [], _, s => s
  | p :: ps, a :: args, s => bindParams ps args (defineVar p.lexeme a s)
  | _ :: _, [], s => s

theorem defineParams_eq_bindParams (ps : List Token) (args : List Value)
    (h : ps.length = args.length) (s : InterpState) :
    defineParams ps args s = .ok () (bindParams ps args s) := by
  induction ps generalizing args s with
  | nil => cases args with
    | nil => rfl
    | cons a args => simp at h
  | cons p ps ih =>
    cases args with
    | nil => simp at h
    | cons a args =>
      simp only [List.length_cons, Nat.succ.injEq] at h
      simpa [defineParams, bindParams] using ih args h (defineVar p.lexeme a s)

theorem bindParams_current (ps : List Token) (args : List Value) (s : InterpState) :
    (bindParams ps args s).current = s.current := by
  induction ps generalizing args s with
  | nil => rfl
  | cons p ps ih =>
    cases args with
    | nil => rfl
    | cons a args => simp [bindParams, ih, defineVar_current]

theorem bindParams_enclosingAt (ps : List Token) (args : List Value)
    (s : InterpState) (i : Nat) :
    envEnclosingAt (bindParams ps args s) i = envEnclosingAt s i := by
  induction ps generalizing args s with
  | nil => rfl
  | cons p ps ih =>
    cases args with
    | nil => rfl
    | cons a args => simp [bindParams, ih, defineVar_enclosingAt]

/-- The tail of Function.Call once the frame is installed and the parameters
are bound: run the body statements, then return Go nil. -/
def runBody (fuel : Nat) (body : List Expr) : M Value := fun s =>
  match evalSeq fuel body s with
  | .err er s3 => .err er s3
  | .ok _ s3 => .ok .nil s3

/-! ## concrete fixtures for the claims -/

/-- The closing-parenthesis token a Call node stores. -/
def rparenTok : Token := { type := ")", lexeme := ")", literal := none, line := 1 }

/-- Program `fun f() {}  { f(); }` — declare at the top level, call inside a block. -/
def c1Prog : List Expr :=
  [.Function (identTok "f" 1) [] [],
   .Block [.Expression (.Call (.Variable (identTok "f" 2)) rparenTok [])]]

/-- Program `fun f() {}  f();` — a top-level user-function call. -/
def c2Prog : List Expr :=
  [.Function (identTok "f" 1) [] [],
   .Expression (.Call (.Variable (identTok "f" 1)) rparenTok [])]

/-- Program `var x = nil; x;`. -/
def c3Prog : List Expr :=
  [.Var (identTok "x" 1) (some (.Literal .noval)),
   .Expression (.Variable (identTok "x" 1))]

/-- Program `y;` with `y` undefined — a runtime error carrying a line number. -/
def c4Prog : List Expr := [.Expression (.Variable (identTok "y" 2))]

/-- Program `var a = 0; 1(a = 5);` — calling a number, with a side-effecting
argument. -/
def c7Prog : List Expr :=
  [.Var (identTok "a" 1) (some (.Literal (.nval 0))),
   .Expression (.Call (.Literal (.nval 1)) rparenTok
     [.Assign (identTok "a" 1) (.Literal (.nval 5))])]

/-- Program `fun g(p) {}  var a = 0;  g(a = 5, 6);` — an arity mismatch with a
side-effecting argument. -/
def c10Prog : List Expr :=
  [.Function (identTok "g" 1) [identTok "p" 1] [],
   .Var (identTok "a" 1) (some (.Literal (.nval 0))),
   .Expression (.Call (.Variable (identTok "g" 1)) rparenTok
     [.Assign (identTok "a" 1) (.Literal (.nval 5)), .Literal (.nval 6)])]

/-! ## scanner (scanner/scanner.go)

The Go scanner walks the source bytes with `start`/`current`/`line` indices;
here the source is a list of characters (identical behaviour on ASCII
input).  Each inner loop of the scanner is a helper returning the position
it stops at; only `addToken` ever appends a token. -/

/-- The quote character. -/
def chQuote : Char := Char.ofNat 34

/-- Newline. -/
def chNewline : Char := Char.ofNat 10

/-- Carriage return. -/
def chCR : Char := Char.ofNat 13

/-- Horizontal tab. -/
def chTab : Char := Char.ofNat 9

/-- The NUL that Go's `peek` returns at the end of input. -/
def chNUL : Char := Char.ofNat 0

/-- Scanner.isDigit (`b >= 0x30 && b <= 0x39`). -/
def isDigitC (c : Char) : Bool := 48 ≤ c.toNat && c.toNat ≤ 57

/-- Scanner.isAlpha (ASCII letters and underscore). -/
def isAlphaC (c : Char) : Bool :=
  (97 ≤ c.toNat && c.toNat ≤ 122) || (65 ≤ c.toNat && c.toNat ≤ 90) || c.toNat = 95

/-- Scanner.isAlphaNumeric. -/
def isAlphaNumericC (c : Char) : Bool := isAlphaC c || isDigitC c

/-- The scanner's keyword table (the token Type of a keyword IS the keyword
string in the Go token package). -/
def keywordList : List String :=
  ["and", "class", "else", "false", "for", "fun", "if", "nil", "or",
   "print", "return", "super", "this", "true", "var", "while"]

/-- Scanner state: the Go Scanner struct plus the diagnostics it printed and
the HadError flag its logger sets. -/
structure SState where
  source : List Char
  start : Nat
  current : Nat
  line : Nat
  tokens : List Token
  diags : List String
  hadError : Bool

/-- A `for ⟨predicate on peek⟩ { current++ }` loop: the index where it
stops. -/
def scanWhile (p : Char → Bool) (src : List Char) (cur : Nat) : Nat :=
  if h : cur < src.length then
    if p (src.getD cur chNUL) then scanWhile p src (cur + 1) else cur
  else cur
termination_by src.length - cur

/-- The string-literal loop: advance to the closing quote (or the end),
counting newlines. -/
def stringEnd (src : List Char) (cur line : Nat) : Nat × Nat :=
  if h : cur < src.length then
    if src.getD cur chNUL = chQuote then (cur, line)
    else stringEnd src (cur + 1) (if src.getD cur chNUL = chNewline then line + 1 else line)
  else (cur, line)
termination_by src.length - cur

/-- The block-comment loop: advance to the position of a `*` directly
followed by `/` (or the end), counting newlines. -/
def blockCommentEnd (src : List Char) (cur line : Nat) : Nat × Nat :=
  if h : cur < src.length then
    if src.getD cur chNUL = '*' ∧ src.getD (cur + 1) chNUL = '/' then (cur, line)
    else blockCommentEnd src (cur + 1) (if src.getD cur chNUL = chNewline then line + 1 else line)
  else (cur, line)
termination_by src.length - cur

/-- The exact source substring `[start, current)` — Scanner.addToken's
lexeme. -/
def lexemeStr (s : SState) : String :=
  String.mk ((s.source.drop s.start).take (s.current - s.start))

/-- Scanner.addToken. -/
def addToken (tokenType : String) (literal : Option LitTok) (s : SState) : SState :=
  { s with tokens := s.tokens ++
      [{ type := tokenType, lexeme := lexemeStr s, literal := literal, line := s.line }] }

/-- A scanner diagnostic (logger.ScannerError → report: sets HadError and
prints). -/
def scanDiag (line : Nat) (msg : String) (s : SState) : SState :=
  { s with diags := s.diags ++ ["[line " ++ toString line ++ "] ScannerError: " ++ msg],
           hadError := true }

/-- Scanner.match: consume the expected character if it is next. -/
def matchAt (s : SState) (expected : Char) : Bool × SState :=
  if s.current < s.source.length ∧ s.source.getD s.current chNUL = expected then
    (true, { s with current := s.current + 1 })
  else (false, s)

/-- The line-comment branch: consume to the end of the line. -/
def handleLineComment (s : SState) : SState :=
  { s with current := scanWhile (fun ch => ch ≠ chNewline) s.source s.current }

/-- The block-comment branch: consume through the matching `*/`, diagnosing
if the end of input comes first. -/
def handleBlockComment (s : SState) : SState :=
  let (e, line1) := blockCommentEnd s.source s.current s.line
  if e < s.source.length then { s with current := e + 2, line := line1 }
  else scanDiag line1 "Unterminated comment block." { s with current := e, line := line1 }

/-- Scanner.handleString. -/
def handleString (s : SState) : SState :=
  let (e, line1) := stringEnd s.source s.current s.line
  if e < s.source.length then
    -- consume the closing quote; the literal drops the surrounding quotes
    let s1 := { s with current := e + 1, line := line1 }
    addToken "STRING" (some (.strLit (String.mk ((s.source.drop (s.start + 1)).take (e - (s.start + 1)))))) s1
  else
    scanDiag line1 "Unterminated string." { s with current := e, line := line1 }

/-- The numeric value of a digit run. -/
def digitsVal (cs : List Char) : Nat :=
  cs.foldl (fun a c => 10 * a + (c.toNat - 48)) 0

/-- The value `strconv.ParseFloat` gives the scanned lexeme
`digits[.digits]` (always well-formed; the Go error branch is
unreachable). -/
def parseLoxNumber (cs : List Char) : Rat :=
  let w := cs.takeWhile isDigitC
  let f := cs.drop (w.length + 1)
  (digitsVal w : Rat) + (digitsVal f : Rat) / ((10 : Rat) ^ f.length)

/-- Scanner.handleNumber. -/
def handleNumber (s : SState) : SState :=
  let e1 := scanWhile isDigitC s.source s.current
  let e2 :=
    if s.source.getD e1 chNUL = '.' ∧ isDigitC (s.source.getD (e1 + 1) chNUL) then
      scanWhile isDigitC s.source (e1 + 1)
    else e1
  let s1 := { s with current := e2 }
  addToken "NUMBER" (some (.numLit (parseLoxNumber ((s1.source.drop s1.start).take (s1.current - s1.start))))) s1

/-- Scanner.handleIdentifier: maximal alphanumeric run; keywords get their
own token kind (which IS the keyword string). -/
def handleIdentifier (s : SState) : SState :=
  let e := scanWhile isAlphaNumericC s.source s.current
  let s1 := { s with current := e }
  let tokenString := lexemeStr s1
  if keywordList.contains tokenString then addToken tokenString none s1
  else addToken "IDENTIFIER" none s1

/-- The dispatch of Scanner.scanToken on the consumed character `c`; `s` is
the state after `advance` incremented `current`.  (The "Unexpected
charater." typo is the source's.) -/
def scanTokenCh (c : Char) (s : SState) : SState :=
  if c = '(' then addToken "(" none s
  else if c = ')' then addToken ")" none s
  else if c = chLBrace then addToken LEFT_BRACE none s
  else if c = chRBrace then addToken RIGHT_BRACE none s
  else if c = ',' then addToken "," none s
  else if c = '.' then addToken "." none s
  else if c = '-' then addToken "-" none s
  else if c = '+' then addToken "+" none s
  else if c = ';' then addToken ";" none s
  else if c = '*' then addToken "*" none s
  else if c = '!' then
    (if (matchAt s '=').1 then addToken "!=" none (matchAt s '=').2
     else addToken "!" none (matchAt s '=').2)
  else if c = '=' then
    (if (matchAt s '=').1 then addToken "==" none (matchAt s '=').2
     else addToken "=" none (matchAt s '=').2)
  else if c = '<' then
    (if (matchAt s '=').1 then addToken "<=" none (matchAt s '=').2
     else addToken "<" none (matchAt s '=').2)
  else if c = '>' then
    (if (matchAt s '=').1 then addToken ">=" none (matchAt s '=').2
     else addToken ">" none (matchAt s '=').2)
  else if c = '/' then
    (if (matchAt s '/').1 then handleLineComment (matchAt s '/').2
     else if (matchAt s '*').1 then handleBlockComment (matchAt s '*').2
     else addToken "/" none s)
  else if c = ' ' ∨ c = chCR ∨ c = chTab then s
  else if c = chNewline then { s with line := s.line + 1 }
  else if c = chQuote then handleString s
  else if isDigitC c then handleNumber s
  else if isAlphaC c then handleIdentifier s
  else scanDiag s.line "Unexpected charater." s

/-- Scanner.scanToken: `advance` (consume one character), then dispatch. -/
def scanToken (s0 : SState) : SState :=
  scanTokenCh (s0.source.getD s0.current chNUL) { s0 with current := s0.current + 1 }

theorem scanWhile_ge (p : Char → Bool) (src : List Char) (cur : Nat) :
    cur ≤ scanWhile p src cur := by
  unfold scanWhile
  split
  · split
    · exact Nat.le_trans (Nat.le_succ cur) (scanWhile_ge p src (cur + 1))
    · exact Nat.le_refl cur
  · exact Nat.le_refl cur
termination_by src.length - cur

theorem stringEnd_ge (src : List Char) (cur line : Nat) :
    cur ≤ (stringEnd src cur line).1 := by
  unfold stringEnd
  split
  · split
    · exact Nat.le_refl cur
    · exact Nat.le_trans (Nat.le_succ cur) (stringEnd_ge src (cur + 1) _)
  · exact Nat.le_refl cur
termination_by src.length - cur

theorem blockCommentEnd_ge (src : List Char) (cur line : Nat) :
    cur ≤ (blockCommentEnd src cur line).1 := by
  unfold blockCommentEnd
  split
  · split
    · exact Nat.le_refl cur
    · exact Nat.le_trans (Nat.le_succ cur) (blockCommentEnd_ge src (cur + 1) _)
  · exact Nat.le_refl cur
termination_by src.length - cur

/-- The invariant one `scanToken` dispatch step maintains: the source is
untouched, `current` never moves backwards, and the token list only grows —
and only with tokens whose kind is not EOF. -/
def ScanStep (s s' : SState) : Prop :=
  s'.source = s.source ∧ s.current ≤ s'.current ∧
  ∀ t ∈ s'.tokens, t ∈ s.tokens ∨ t.type ≠ "EOF"

theorem ScanStep_refl (s : SState) : ScanStep s s :=
  ⟨rfl, Nat.le_refl _, fun _ ht => Or.inl ht⟩

theorem ScanStep_trans {s u w : SState} (h1 : ScanStep s u) (h2 : ScanStep u w) :
    ScanStep s w := by
  obtain ⟨a1, b1, c1⟩ := h1
  obtain ⟨a2, b2, c2⟩ := h2
  refine ⟨a2.trans a1, b1.trans b2, fun t ht => ?_⟩
  rcases c2 t ht with h | h
  · exact c1 t h
  · exact Or.inr h

theorem ScanStep_ite (s : SState) (P : Prop) [Decidable P] (f g : SState)
    (hf : ScanStep s f) (hg : ScanStep s g) : ScanStep s (if P then f else g) := by
  by_cases h : P
  · simpa [h] using hf
  · simpa [h] using hg

theorem ScanStep_addToken {s u : SState} (tt : String) (lit : Option LitTok)
    (h : ScanStep s u) (htt : tt ≠ "EOF") : ScanStep s (addToken tt lit u) := by
  obtain ⟨hs, hc, htk⟩ := h
  refine ⟨hs, hc, fun t ht => ?_⟩
  simp only [addToken, List.mem_append, List.mem_singleton] at ht
  rcases ht with ht | ht
  · exact htk t ht
  · subst ht
    exact Or.inr htt

theorem ScanStep_scanDiag {s u : SState} (line : Nat) (msg : String)
    (h : ScanStep s u) : ScanStep s (scanDiag line msg u) :=
  ⟨h.1, h.2.1, h.2.2⟩

theorem ScanStep_matchAt (s : SState) (e : Char) : ScanStep s (matchAt s e).2 := by
  unfold matchAt
  split
  · exact ⟨rfl, Nat.le_succ _, fun _ ht => Or.inl ht⟩
  · exact ScanStep_refl s

theorem handleLineComment_step (u : SState) : ScanStep u (handleLineComment u) :=
  ⟨rfl, scanWhile_ge _ _ _, fun _ ht => Or.inl ht⟩

theorem handleBlockComment_step (u : SState) : ScanStep u (handleBlockComment u) := by
  unfold handleBlockComment
  have h := blockCommentEnd_ge u.source u.current u.line
  split
  rename_i e line1 heq
  rw [heq] at h
  simp only at h
  split
  · exact ⟨rfl, by dsimp only; omega, fun _ ht => Or.inl ht⟩
  · exact ScanStep_scanDiag _ _ ⟨rfl, h, fun _ ht => Or.inl ht⟩

theorem handleString_step (u : SState) : ScanStep u (handleString u) := by
  unfold handleString
  have h := stringEnd_ge u.source u.current u.line
  split
  rename_i e line1 heq
  rw [heq] at h
  simp only at h
  split
  · exact ScanStep_addToken _ _ ⟨rfl, by dsimp only; omega, fun _ ht => Or.inl ht⟩ (by decide)
  · exact ScanStep_scanDiag _ _ ⟨rfl, h, fun _ ht => Or.inl ht⟩

theorem handleNumber_step (u : SState) : ScanStep u (handleNumber u) := by
  unfold handleNumber
  dsimp only
  have h1 := scanWhile_ge isDigitC u.source u.current
  refine ScanStep_addToken _ _ ⟨rfl, ?_, fun _ ht => Or.inl ht⟩ (by decide)
  dsimp only
  split
  · have h2 := scanWhile_ge isDigitC u.source (scanWhile isDigitC u.source u.current + 1)
    omega
  · exact h1

theorem handleIdentifier_step (u : SState) : ScanStep u (handleIdentifier u) := by
  unfold handleIdentifier
  dsimp only
  have h1 := scanWhile_ge isAlphaNumericC u.source u.current
  split
  · rename_i hkw
    refine ScanStep_addToken _ _ ⟨rfl, h1, fun _ ht => Or.inl ht⟩ ?_
    intro he
    rw [he] at hkw
    exact absurd hkw (by decide)
  · exact ScanStep_addToken _ _ ⟨rfl, h1, fun _ ht => Or.inl ht⟩ (by decide)

theorem scanTokenCh_step (c : Char) (s : SState) : ScanStep s (scanTokenCh c s) := by
  unfold scanTokenCh
  repeat'
    first
    | exact ScanStep_refl s
    | exact ⟨rfl, Nat.le_refl _, fun _ ht => Or.inl ht⟩
    | exact ScanStep_addToken _ _ (ScanStep_refl s) (by decide)
    | exact ScanStep_addToken _ _ (ScanStep_matchAt s _) (by decide)
    | exact ScanStep_trans (ScanStep_matchAt s _) (handleLineComment_step _)
    | exact ScanStep_trans (ScanStep_matchAt s _) (handleBlockComment_step _)
    | exact handleString_step s
    | exact handleNumber_step s
    | exact handleIdentifier_step s
    | exact ScanStep_scanDiag _ _ (ScanStep_refl s)
    | apply ScanStep_ite

theorem scanToken_step (s : SState) : ScanStep s (scanToken s) := by
  have h1 : ScanStep s { s with current := s.current + 1 } :=
    ⟨rfl, Nat.le_succ _, fun _ ht => Or.inl ht⟩
  unfold scanToken
  exact ScanStep_trans h1 (scanTokenCh_step _ { s with current := s.current + 1 })

theorem scanToken_source (s : SState) : (scanToken s).source = s.source :=
  (scanToken_step s).1

theorem scanToken_progress (s : SState) : s.current < (scanToken s).current := by
  have h := (scanTokenCh_step (s.source.getD s.current chNUL)
    { s with current := s.current + 1 }).2.1
  unfold scanToken
  exact Nat.lt_of_lt_of_le (Nat.lt_succ_self _) h

/-- Scanner.ScanTokens' main loop: while not at the end, reset `start` and
scan one token.  Termination: `scanToken` always advances `current` and
never changes the source. -/
def scanLoop (s : SState) : SState :=
  if h : s.current < s.source.length then
    scanLoop (scanToken { s with start := s.current })
  else s
termination_by s.source.length - s.current
decreasing_by
  have hsrc := scanToken_source { s with start := s.current }
  have hcur := scanToken_progress { s with start := s.current }
  dsimp only at hcur
  simp only [hsrc]
  omega

/-- Scanner.New: a fresh scanner on the given source (line 1, empty token
list). -/
def initScanState (source : List Char) : SState :=
  { source := source, start := 0, current := 0, line := 1,
    tokens := [], diags := [], hadError := false }

/-- The scanner state after the main loop. -/
def scanFinal (source : List Char) : SState :=
  scanLoop (initScanState source)

/-- Scanner.ScanTokens: run the loop, then append the one EOF token carrying
the final line count. -/
def scanTokens (source : List Char) : List Token :=
  (scanFinal source).tokens ++
    [{ type := "EOF", lexeme := "", literal := none, line := (scanFinal source).line }]

theorem scanLoop_scanStep (s : SState) : ScanStep s (scanLoop s) := by
  unfold scanLoop
  split
  · have h1 : ScanStep s { s with start := s.current } :=
      ⟨rfl, Nat.le_refl _, fun _ ht => Or.inl ht⟩
    exact ScanStep_trans (ScanStep_trans h1 (scanToken_step _))
      (scanLoop_scanStep (scanToken { s with start := s.current }))
  · exact ScanStep_refl s
termination_by s.source.length - s.current
decreasing_by
  have hsrc := scanToken_source { s with start := s.current }
  have hcur := scanToken_progress { s with start := s.current }
  dsimp only at hcur
  simp only [hsrc]
  omega

/-! ## C1 — closure capture -/

/-- C1, counterexample: in `fun f() {} { f(); }` the declaration executes
while environment 0 (the globals) is current, but the call happens inside a
block whose environment is 1 — and the call frame (environment 2) encloses
environment 1, the CALL-time environment, not the declaration-time
environment 0.  The `Function` value stores no environment at all. -/
theorem c1_counterexample :
    envEnclosingAt (interpret 20 c1Prog initialState).state 2 = some (some 1)
    ∧ envEnclosingAt (interpret 20 c1Prog initialState).state 2 ≠ some (some 0)
    ∧ initialState.current = 0 := by decide

/-- C1, amended: evaluating a `fun` declaration builds a `Function` value
holding only the declaration (the value type has no environment field) and
binds the name in the current environment; a call to a user function runs
its body in a fresh environment whose `Enclosing` is the environment current
AT CALL TIME (`s.current`), with the parameters bound in that frame. -/
theorem c1_amended (fuel : Nat) (n : Token) (ps : List Token) (body : List Expr)
    (s : InterpState) :
    eval (fuel + 1) (.Function n ps body) s
      = .ok .nil (defineVar n.lexeme (.fn ⟨n, ps, body⟩) s)
    ∧ ∀ (d : FunctionDecl) (args : List Value),
        d.parameters.length = args.length →
        ∃ s1, functionCall (fuel + 1) d args s = runBody fuel d.body s1
          ∧ s1.current = s.envs.length
          ∧ envEnclosingAt s1 s1.current = some (some s.current) := by
  constructor
  · simp [eval]
  · intro d args h
    refine ⟨bindParams d.parameters args
      { s with envs := s.envs ++ [{ enclosing := some s.current, values := [] }],
               current := s.envs.length }, ?_, ?_, ?_⟩
    · simp only [functionCall, newEnclosed]
      rw [defineParams_eq_bindParams _ _ h]
      rfl
    · simp [bindParams_current]
    · rw [bindParams_enclosingAt, bindParams_current]
      simp [envEnclosingAt, List.getElem?_concat_length]

/-- Witness for `c1_amended` at `fun f() {}` called with no arguments from
the initial state. -/
theorem c1_amended_witness :
    eval 1 (.Function (identTok "f" 1) [] []) initialState
      = .ok .nil (defineVar "f" (.fn ⟨identTok "f" 1, [], []⟩) initialState)
    ∧ ∃ s1, functionCall 1 ⟨identTok "f" 1, [], []⟩ [] initialState = runBody 0 [] s1
        ∧ s1.current = 1
        ∧ envEnclosingAt s1 s1.current = some (some 0) := by
  have h := c1_amended 0 (identTok "f" 1) [] [] initialState
  exact ⟨h.1, h.2 ⟨identTok "f" 1, [], []⟩ [] rfl⟩

/-! ## C2 — environment restoration -/

/-- C2, counterexample: after the top-level call `f()` completes normally,
the interpreter's current environment is the call frame (1), not the
environment (0) that was current before the call — Function.Call never
restores it. -/
theorem c2_counterexample :
    (interpret 20 c2Prog initialState).state.current = 1
    ∧ initialState.current = 0 ∧ (1 : Nat) ≠ 0 := by decide

/-- C2, amended: a block restores the previous current environment on every
exit path (both the normal and the error result carry `current = s.current`),
but a user-function call does not: calling a parameterless, empty-bodied
function leaves the fresh call frame installed as the current
environment. -/
theorem c2_amended (fuel : Nat) (stmts : List Expr) (s : InterpState) :
    (eval fuel (.Block stmts) s).state.current = s.current
    ∧ ∀ (n : Token), s.current < s.envs.length →
        functionCall (fuel + 2) ⟨n, [], []⟩ [] s
          = .ok .nil { s with envs := s.envs ++ [{ enclosing := some s.current, values := [] }],
                              current := s.envs.length }
        ∧ s.envs.length ≠ s.current := by
  constructor
  · cases fuel with
    | zero => rfl
    | succ m =>
      simp only [eval, newEnclosed]
      cases h : evalSeq m stmts
          { s with envs := s.envs ++ [{ enclosing := some s.current, values := [] }],
                   current := s.envs.length } with
      | ok v s2 => simp [h, Res.state]
      | err e s2 => simp [h, Res.state]
  · intro n hlt
    refine ⟨?_, Nat.ne_of_gt hlt⟩
    simp [functionCall, newEnclosed, defineParams, evalSeq]

/-- Witness for `c2_amended` from the initial state. -/
theorem c2_amended_witness :
    (eval 0 (.Block []) initialState).state.current = 0
    ∧ functionCall 2 ⟨identTok "f" 1, [], []⟩ [] initialState
        = .ok .nil { initialState with
            envs := initialState.envs ++ [{ enclosing := some 0, values := [] }],
            current := 1 }
    ∧ (1 : Nat) ≠ 0 := by
  have h := c2_amended 0 [] initialState
  exact ⟨h.1, (h.2 (identTok "f" 1) (by decide)).1, (h.2 (identTok "f" 1) (by decide)).2⟩

/-! ## C3 — the uninitialized marker -/

/-- C3, counterexample: `var x = nil; x;` also errors with "used before
being initialized" — the marker is Go nil itself, not a sentinel distinct
from Nil (and the error sets HadError on the way out). -/
theorem c3_counterexample :
    (evalSeq 10 c3Prog initialState).errOf
      = some (.atToken 1 "x" (uninitializedMsg "x"))
    ∧ (evalSeq 10 c3Prog initialState).state.hadError = true := by decide

/-- C3, amended: a bare `var x;` and `var x = nil;` leave identical states
(both bind `x` to Go nil), and reading any variable whose current-environment
slot holds Go nil fails with "Variable 'x' used before being initialized." —
so the first half of the claim holds but there is no sentinel distinct from
Nil. -/
theorem c3_amended (fuel : Nat) (x : Token) (s : InterpState) :
    eval (fuel + 2) (.Var x none) s = eval (fuel + 2) (.Var x (some (.Literal .noval))) s
    ∧ ∀ env, s.envs[s.current]? = some env →
        mapGet env.values x.lexeme = some .nil →
        eval (fuel + 1) (.Variable x) s
          = .err (.atToken x.line x.lexeme (uninitializedMsg x.lexeme))
              { s with hadError := true } := by
  constructor
  · simp [eval, LitValue.toValue]
  · intro env h1 h2
    simp [eval, getVar, h1, h2, isGoNil, interpreterErrorWithLineNumber]

/-- Witness for `c3_amended` in a state whose globals bind `x` to Go nil. -/
theorem c3_amended_witness :
    eval 2 (.Var (identTok "x" 1) none) (defineVar "x" .nil initialState)
      = eval 2 (.Var (identTok "x" 1) (some (.Literal .noval))) (defineVar "x" .nil initialState)
    ∧ eval 1 (.Variable (identTok "x" 1)) (defineVar "x" .nil initialState)
        = .err (.atToken 1 "x" (uninitializedMsg "x"))
            { envs := [{ enclosing := none,
                         values := [("clock", .native .clock), ("sqrt", .native .sqrt),
                                    ("x", .nil)] }],
              current := 0, output := [], hadError := true, clockNow := 0 } := by
  have h := c3_amended 0 (identTok "x" 1) (defineVar "x" .nil initialState)
  exact ⟨h.1, h.2 (Env.mk none
    [("clock", .native .clock), ("sqrt", .native .sqrt), ("x", .nil)]) rfl rfl⟩

/-! ## C4 — the HadError flag -/

/-- C4, counterexample: interpreting `y;` (an undefined variable) reports a
runtime error through InterpreterErrorWithLineNumber, which goes through
`logger.report` and sets HadError — so a runtime error does NOT leave the
flag unchanged. -/
theorem c4_counterexample :
    initialState.hadError = false
    ∧ (interpret 10 c4Prog initialState).state.hadError = true := by decide

/-- C4, amended: runtime errors built by `logger.InterpreterError` (no
token) leave the state — HadError included — untouched, and a call of a
non-callable is such an error; but runtime errors built by
`logger.InterpreterErrorWithLineNumber` go through `report`, which sets
HadError, so the interpreter does write the flag on that path. -/
theorem c4_amended (fuel : Nat) (s : InterpState) (t : Token) (msg : String)
    (x : Rat) (paren : Token) :
    (interpreterError msg : M Value) s = .err (.plain msg) s
    ∧ (interpreterErrorWithLineNumber t msg : M Value) s
        = .err (.atToken t.line t.lexeme msg) { s with hadError := true }
    ∧ eval (fuel + 2) (.Call (.Literal (.nval x)) paren []) s
        = .err (.plain "Can only call functions and classes.") s := by
  refine ⟨rfl, rfl, ?_⟩
  simp [eval, evalArgs, callableOf, interpreterError, LitValue.toValue]

/-! ## C7 — call-expression checks and evaluation order -/

/-- C7, counterexample: in `var a = 0; 1(a = 5);` the call fails with
"Can only call functions and classes." but the argument WAS evaluated first:
`a` ends up 5.  The claim's "before any argument is evaluated" is false —
the source type-asserts the callee only after the argument loop. -/
theorem c7_counterexample :
    (evalSeq 10 c7Prog initialState).errOf
      = some (.plain "Can only call functions and classes.")
    ∧ numAt (evalSeq 10 c7Prog initialState).state 0 "a" 5 = true
    ∧ numAt (evalSeq 10 c7Prog initialState).state 0 "a" 0 = false := by decide

/-- C7, amended: a call evaluates the callee, then ALL arguments left to
right, and only then checks callability ("Can only call functions and
classes.") and arity ("Expected N arguments but got M.") — both failures are
runtime errors raised in the post-argument state, never a silent result. -/
theorem c7_amended (fuel : Nat) (callee : Expr) (paren : Token) (args : List Expr)
    (s s1 s2 : InterpState) (v : Value) (vs : List Value)
    (h1 : eval fuel callee s = .ok v s1)
    (h2 : evalArgs fuel args s1 = .ok vs s2) :
    (callableOf v = none →
      eval (fuel + 1) (.Call callee paren args) s
        = .err (.plain "Can only call functions and classes.") s2)
    ∧ ∀ c, callableOf v = some c → vs.length ≠ arityOf c →
        eval (fuel + 1) (.Call callee paren args) s
          = .err (.plain ("Expected " ++ toString (arityOf c) ++ " arguments but got "
              ++ toString vs.length ++ ".")) s2 := by
  constructor
  · intro hc
    simp [eval, h1, h2, hc, interpreterError]
  · intro c hc hne
    simp [eval, h1, h2, hc, hne, interpreterError]

/-- Witness for `c7_amended`: calling the number 1 with no arguments. -/
theorem c7_amended_witness :
    eval 2 (.Call (.Literal (.nval 1)) rparenTok []) initialState
      = .err (.plain "Can only call functions and classes.") initialState := by
  exact (c7_amended 1 (.Literal (.nval 1)) rparenTok [] initialState initialState
    initialState (.num 1) [] rfl rfl).1 rfl

/-! ## C8 — short-circuit logical operators -/

/-- C8, confirmed: `or` returns the left value itself (uncoerced) when it is
truthy and never evaluates the right operand (the result does not depend on
`b` at all); `and` returns the left value when it is falsey; otherwise the
right operand's evaluation is the result. -/
theorem c8_theorem (fuel : Nat) (a b : Expr) (s s1 : InterpState) (v : Value)
    (orT andT : Token) (hor : orT.type = "or") (hand : andT.type = "and")
    (h : eval fuel a s = .ok v s1) :
    (isTruthy v = true → eval (fuel + 1) (.Logical a orT b) s = .ok v s1)
    ∧ (isTruthy v = false → eval (fuel + 1) (.Logical a orT b) s = eval fuel b s1)
    ∧ (isTruthy v = false → eval (fuel + 1) (.Logical a andT b) s = .ok v s1)
    ∧ (isTruthy v = true → eval (fuel + 1) (.Logical a andT b) s = eval fuel b s1) := by
  refine ⟨?_, ?_, ?_, ?_⟩ <;> intro ht <;> simp [eval, h, hor, hand, ht]

/-- Witness for `c8_theorem`: `true or (1/0)` returns the left `true`
without touching the (division-by-zero) right operand. -/
theorem c8_theorem_witness :
    (isTruthy (.bool true) = true →
      eval 2 (.Logical (.Literal (.bval true))
          { type := "or", lexeme := "or", literal := none, line := 1 }
          (.Binary (.Literal (.nval 1))
            { type := "/", lexeme := "/", literal := none, line := 1 }
            (.Literal (.nval 0)))) initialState
        = .ok (.bool true) initialState)
    ∧ (isTruthy (.bool true) = false →
      eval 2 (.Logical (.Literal (.bval true))
          { type := "or", lexeme := "or", literal := none, line := 1 }
          (.Binary (.Literal (.nval 1))
            { type := "/", lexeme := "/", literal := none, line := 1 }
            (.Literal (.nval 0)))) initialState
        = eval 1 (.Binary (.Literal (.nval 1))
            { type := "/", lexeme := "/", literal := none, line := 1 }
            (.Literal (.nval 0))) initialState) := by
  have h := c8_theorem 1 (.Literal (.bval true))
    (.Binary (.Literal (.nval 1))
      { type := "/", lexeme := "/", literal := none, line := 1 }
      (.Literal (.nval 0)))
    initialState initialState (.bool true)
    { type := "or", lexeme := "or", literal := none, line := 1 }
    { type := "and", lexeme := "and", literal := none, line := 1 }
    rfl rfl rfl
  exact ⟨h.1, h.2.1⟩

/-! ## C5 — parser error recovery -/

/-- C5, the Go switch bug evaluated: after the syntax error at `+` in
`+ var x ;`, synchronize does NOT stop with `var` as the next token
(position 1, as the claim requires) — the empty switch cases fall out of the
switch, so it consumes the whole declaration and stops only after the `;`
(position 4, at EOF).  With `while` as the next token it stops as claimed
(position 1), `while` being the single case with a body. -/
theorem c5_theorem :
    (synchronize c5StateA).current = 4
    ∧ (peekT (synchronize c5StateA)).type = "EOF"
    ∧ (synchronize c5StateA).current ≠ 1
    ∧ (peekT { c5StateA with current := 1 }).type = "var"
    ∧ (synchronize c5StateB).current = 1
    ∧ (peekT (synchronize c5StateB)).type = "while" := by decide

/-! ## C6 — for-statement desugaring -/

theorem forAfterIncr_shape (fuel : Nat) (i c u : Option Expr) (p p' : PState) (r : Expr)
    (h : forAfterIncr fuel i c u p = .pok r p') : ∃ b, r = forDesugar i c u b := by
  cases fuel with
  | zero => cases h
  | succ k =>
    unfold forAfterIncr at h
    split at h
    · cases h
    · cases h
      exact ⟨_, rfl⟩

theorem forAfterCond_shape (fuel : Nat) (i c : Option Expr) (p p' : PState) (r : Expr)
    (h : forAfterCond fuel i c p = .pok r p') : ∃ u b, r = forDesugar i c u b := by
  cases fuel with
  | zero => cases h
  | succ k =>
    unfold forAfterCond at h
    split at h
    · split at h
      · obtain ⟨b, hb⟩ := forAfterIncr_shape _ _ _ _ _ _ _ h
        exact ⟨none, b, hb⟩
      · cases h
    · split at h
      · cases h
      · rename_i u p1 hequ
        split at h
        · obtain ⟨b, hb⟩ := forAfterIncr_shape _ _ _ _ _ _ _ h
          exact ⟨some u, b, hb⟩
        · cases h

theorem forAfterInit_shape (fuel : Nat) (i : Option Expr) (p p' : PState) (r : Expr)
    (h : forAfterInit fuel i p = .pok r p') : ∃ c u b, r = forDesugar i c u b := by
  cases fuel with
  | zero => cases h
  | succ k =>
    unfold forAfterInit at h
    split at h
    · split at h
      · obtain ⟨u, b, hb⟩ := forAfterCond_shape _ _ _ _ _ _ h
        exact ⟨none, u, b, hb⟩
      · cases h
    · split at h
      · cases h
      · rename_i c p1 heqc
        split at h
        · obtain ⟨u, b, hb⟩ := forAfterCond_shape _ _ _ _ _ _ h
          exact ⟨some c, u, b, hb⟩
        · cases h

/-- C6, amended: every for statement that parses successfully produces
`forDesugar I C U B` for the parsed pieces — where, exactly as the source's
three `if`s read: body and increment (if present) are wrapped in a Block,
that is wrapped in a While ONLY IF a condition is present (an absent
condition produces NO While at all, rather than one with the literal true),
and the initializer (if present) wraps the result in a Block. -/
theorem c6_amended (fuel : Nat) (p p' : PState) (r : Expr)
    (h : forStatement fuel p = .pok r p') :
    (∃ i c u b, r = forDesugar i c u b)
    ∧ (∀ (c0 : Expr) (i u : Option Expr) (b : Expr),
        forDesugar i (some c0) u b
          = (match i with
             | some i0 => Expr.Block [i0, Expr.While c0 (match u with
                 | some u0 => Expr.Block [b, Expr.Expression u0]
                 | none => b)]
             | none => Expr.While c0 (match u with
                 | some u0 => Expr.Block [b, Expr.Expression u0]
                 | none => b)))
    ∧ (∀ (i u : Option Expr) (b : Expr),
        forDesugar i none u b
          = (match i with
             | some i0 => Expr.Block [i0, (match u with
                 | some u0 => Expr.Block [b, Expr.Expression u0]
                 | none => b)]
             | none => (match u with
                 | some u0 => Expr.Block [b, Expr.Expression u0]
                 | none => b))) := by
  refine ⟨?_, ?_, ?_⟩
  · cases fuel with
    | zero => cases h
    | succ k =>
      unfold forStatement at h
      split at h
      · cases h
      · split at h
        · obtain ⟨c, u, b, hb⟩ := forAfterInit_shape _ _ _ _ _ h
          exact ⟨none, c, u, b, hb⟩
        · split at h
          · split at h
            · cases h
            · rename_i i p4 heqi
              obtain ⟨c, u, b, hb⟩ := forAfterInit_shape _ _ _ _ _ h
              exact ⟨some i, c, u, b, hb⟩
          · split at h
            · cases h
            · rename_i i p4 heqi
              obtain ⟨c, u, b, hb⟩ := forAfterInit_shape _ _ _ _ _ h
              exact ⟨some i, c, u, b, hb⟩
  · intro c0 i u b
    cases i <;> cases u <;> rfl
  · intro i u b
    cases i <;> cases u <;> rfl

/-- Witness for `c6_amended`: the for statement of `for (;;) print 1;`. -/
theorem c6_amended_witness :
    ∃ i c u b, (Expr.Print (.Literal (.nval 1))) = forDesugar i c u b :=
  (c6_amended 25 c6ForState c6ForStateEnd (.Print (.Literal (.nval 1))) rfl).1

/-- C6, counterexample: `for (;;) print 1;` parses (with no diagnostics) to
the bare `print 1;` statement — not to the spec's claimed form, a While with
the literal `true` condition, which `specForDesugar` would produce. -/
theorem c6_counterexample :
    (Parse 30 c6Tokens).1 = [.Print (.Literal (.nval 1))]
    ∧ (Parse 30 c6Tokens).2.diags = []
    ∧ isWhile (specForDesugar none none none (.Print (.Literal (.nval 1)))) = true
    ∧ (Parse 30 c6Tokens).1.map isWhile = [false] :=
  ⟨rfl, rfl, rfl, rfl⟩

/-! ## C9 — scanner totality and the EOF token -/

/-- C9, confirmed: `ScanTokens` is total (the embedding is a terminating
function for every input: the main loop's measure is the distance to the end
of the source, which every `scanToken` call strictly decreases), and for
every input the returned list ends with an EOF token carrying the final line
count — and no other element has kind EOF, diagnostics or not. -/
theorem c9_theorem (src : List Char) :
    (scanTokens src).getLast?
      = some { type := "EOF", lexeme := "", literal := none, line := (scanFinal src).line }
    ∧ ∀ t ∈ (scanTokens src).dropLast, t.type ≠ "EOF" := by
  constructor
  · unfold scanTokens
    exact List.getLast?_concat _
  · unfold scanTokens
    rw [List.dropLast_concat]
    intro t ht
    have h := (scanLoop_scanStep (initScanState src)).2.2 t
      (by simpa [scanFinal] using ht)
    rcases h with h | h
    · simp [initScanState] at h
    · exact h

/-! ## C10 — atomicity of call failures -/

/-- C10, counterexample: in `fun g(p) {} var a = 0; g(a = 5, 6);` the call
fails on arity, and indeed no call frame exists (the store still has only
the globals) — but the environment chain is NOT as it was before the call
expression: evaluating the arguments set `a` to 5. -/
theorem c10_counterexample :
    (evalSeq 10 c10Prog initialState).errOf
      = some (.plain "Expected 1 arguments but got 2.")
    ∧ numAt (evalSeq 10 c10Prog initialState).state 0 "a" 5 = true
    ∧ numAt (evalSeq 10 c10Prog initialState).state 0 "a" 0 = false
    ∧ (evalSeq 10 c10Prog initialState).state.envs.length = 1 := by decide

/-- C10, amended: when the callee is not callable or the arity check fails,
the call errors in EXACTLY the post-argument state `s2`: no call-frame
environment is created, no parameter is defined, and the current-environment
pointer equals `s2.current` — but `s2` itself may already differ from the
pre-call state because the callee and all arguments were evaluated first. -/
theorem c10_amended (fuel : Nat) (callee : Expr) (paren : Token) (args : List Expr)
    (s s1 s2 : InterpState) (v : Value) (vs : List Value)
    (h1 : eval fuel callee s = .ok v s1)
    (h2 : evalArgs fuel args s1 = .ok vs s2)
    (hfail : callableOf v = none ∨ ∃ c, callableOf v = some c ∧ vs.length ≠ arityOf c) :
    (∃ e, eval (fuel + 1) (.Call callee paren args) s = .err e s2)
    ∧ (eval (fuel + 1) (.Call callee paren args) s).state.envs = s2.envs
    ∧ (eval (fuel + 1) (.Call callee paren args) s).state.current = s2.current := by
  have heq : ∃ e, eval (fuel + 1) (.Call callee paren args) s = .err e s2 := by
    rcases hfail with hc | ⟨c, hc, hne⟩
    · exact ⟨.plain "Can only call functions and classes.",
        by simp [eval, h1, h2, hc, interpreterError]⟩
    · exact ⟨.plain ("Expected " ++ toString (arityOf c) ++ " arguments but got "
          ++ toString vs.length ++ "."),
        by simp [eval, h1, h2, hc, hne, interpreterError]⟩
  obtain ⟨e, he⟩ := heq
  refine ⟨⟨e, he⟩, ?_, ?_⟩ <;> simp [he, Res.state]


/-- Witness for `c10_amended`: `clock(7)` — a native of arity 0 called with
one argument. -/
theorem c10_amended_witness :
    (∃ e, eval 3 (.Call (.Variable (identTok "clock" 1)) rparenTok
        [.Literal (.nval 7)]) initialState = .err e initialState)
    ∧ (eval 3 (.Call (.Variable (identTok "clock" 1)) rparenTok
        [.Literal (.nval 7)]) initialState).state.envs = initialState.envs
    ∧ (eval 3 (.Call (.Variable (identTok "clock" 1)) rparenTok
        [.Literal (.nval 7)]) initialState).state.current = initialState.current := by
  exact c10_amended 2 (.Variable (identTok "clock" 1)) rparenTok [.Literal (.nval 7)]
    initialState initialState initialState (.native .clock) [.num 7] rfl rfl
    (Or.inr ⟨.nativeFn .clock, rfl, by decide⟩)

end Golox
